import Mathlib

/-!
Verification development for the fireflies-to-bear reconciliation pipeline.

Shallow embedding of the core components of the repository:
  * `StateManager` (content hashing, change detection, state load/save,
    backup rotation) from `state_manager.py`,
  * `FileMatcher` (pair matching by filename group/timestamp) from
    `file_matcher.py`,
  * `FileMonitor` (directory diff scanning) from `file_monitor.py`,
  * `with_retry` and `Application._process_file_pair` (the per-pair
    orchestration) from `app.py`.

Filesystem reads, external PDF parsing, note generation and the Bear
note-store are modelled as explicit environments; machine state (the python
dicts) is modelled as functions into `Option`.
-/

namespace FirefliesToBear

/-! ## Data model (`file_monitor.py`, `file_matcher.py`, `state_manager.py`) -/

/-- `MonitoredFile` from `file_monitor.py`: a filesystem entry as last
observed.  Timestamps are abstracted to naturals. -/
structure MonitoredFile where
  path : String
  last_modified : Nat
  file_size : Nat
  deriving DecidableEq, Repr

/-- `MatchedFiles` from `file_matcher.py`: a matched (summary, transcript)
pair.  `meeting_date` is the parsed filename timestamp in seconds (rational,
millisecond resolution). -/
structure MatchedFiles where
  summary : MonitoredFile
  transcript : MonitoredFile
  meeting_date : ℚ
  meeting_name : String
  deriving DecidableEq, Repr

/-- `ProcessedFile` from `state_manager.py`: the persisted record of one
successfully published pair. -/
structure ProcessedFile where
  summary_path : String
  summary_hash : String
  transcript_path : String
  transcript_hash : String
  bear_note_id : String
  last_processed : String
  deriving DecidableEq, Repr

/-- `Path(p).name`: the final component of a path string. -/
def fileName (p : String) : String :=
  (p.splitOn "/").getLastD p

/-- `StateManager._get_file_pair_key`: the pair key is built from the two
file basenames joined by a bar. -/
def pairKey (summary_path transcript_path : String) : String :=
  fileName summary_path ++ "|" ++ fileName transcript_path

/-- The in-memory `processed_files` dict of `StateManager`. -/
def StateMap : Type := String → Option ProcessedFile

/-- The empty state (a fresh `StateManager`). -/
def emptyState : StateMap := fun _ => none

/-- Python dict assignment `d[k] = v`. -/
def stInsert (m : StateMap) (k : String) (v : ProcessedFile) : StateMap :=
  fun k' => if k' = k then some v else m k'

/-! ## Filesystem environment and hashing (`StateManager._compute_file_hash`) -/

/-- Environment for file reads and the SHA-256 digest.  `read` returns
`none` when opening/reading the file raises, `hashFn` abstracts the
hex digest of the file's bytes. -/
structure FsEnv where
  read : String → Option String
  hashFn : String → String

/-- `StateManager._compute_file_hash`: hash of the file's content, or the
empty string when reading raises. -/
def computeFileHash (fs : FsEnv) (file_path : String) : String :=
  match fs.read file_path with
  | some content => fs.hashFn content
  | none => ""

/-! ## StateManager queries and updates -/

/-- `StateManager.get_file_state`. -/
def getFileState (st : StateMap) (mf : MatchedFiles) : Option ProcessedFile :=
  st (pairKey mf.summary.path mf.transcript.path)

/-- `StateManager.has_files_changed`: true when no record exists or either
freshly computed hash differs from the stored one. -/
def hasFilesChanged (fs : FsEnv) (st : StateMap) (mf : MatchedFiles) : Bool :=
  match getFileState st mf with
  | none => true
  | some state =>
      let summary_hash := computeFileHash fs mf.summary.path
      let transcript_hash := computeFileHash fs mf.transcript.path
      decide (summary_hash ≠ state.summary_hash ∨
              transcript_hash ≠ state.transcript_hash)

/-- `StateManager.update_file_state`: store a fresh record with freshly
computed hashes, the returned note id and the current time. -/
def updateFileState (fs : FsEnv) (now : String) (st : StateMap)
    (mf : MatchedFiles) (bear_note_id : String) : StateMap :=
  stInsert st (pairKey mf.summary.path mf.transcript.path)
    { summary_path := mf.summary.path
      summary_hash := computeFileHash fs mf.summary.path
      transcript_path := mf.transcript.path
      transcript_hash := computeFileHash fs mf.transcript.path
      bear_note_id := bear_note_id
      last_processed := now }

/-! ## Collaborator result types (`pdf_parser.py`, `note_generator.py`) -/

/-- `PDFContent` from `pdf_parser.py`. -/
structure PDFContent where
  title : String
  content : String
  page_count : Nat
  error : Option String := none
  deriving DecidableEq, Repr

/-- `GeneratedNote` from `note_generator.py`. -/
structure GeneratedNote where
  title : String
  content : String
  error : Option String := none
  deriving DecidableEq, Repr

/-- Outcome of `Application._parse_pdf_with_retry`: either the wrapped call
returned a `PDFContent`, or a `NonRetryableError` escaped (including retry
exhaustion, modelled separately by `withRetry` below). -/
inductive ParseOutcome where
  | raised
  | ok (content : PDFContent)
  deriving DecidableEq, Repr

/-- Which Bear operation `Application._create_or_update_note` invokes:
`update_note` with the stored note id, or `create_note`. -/
inductive PublishOp where
  | create
  | update (note_id : String)
  deriving DecidableEq, Repr

/-- Outcome of `Application._create_or_update_note`: either a
`NonRetryableError` escaped (thrown error or retry exhaustion), or the call
returned `(True, note_identifier)` — the success flag is always true on a
normal return because a failure response raises `RetryableError` inside the
wrapper. -/
inductive PublishOutcome where
  | raised
  | ok (note_id : String)
  deriving DecidableEq, Repr

/-- Environment of external collaborators seen by
`Application._process_file_pair`: the filesystem (for hashing), the
retry-wrapped PDF parser, the note generator, the retry-wrapped Bear
create-or-update, and the clock. -/
structure OrchEnv where
  fs : FsEnv
  parse : String → ParseOutcome
  gen : MatchedFiles → GeneratedNote
  bear : PublishOp → GeneratedNote → PublishOutcome
  now : String

/-- Log of external calls made while processing one pair: number of
invocations of the retry-wrapped parser, of the generator, and the list of
Bear operations invoked. -/
structure CallLog where
  parseCalls : Nat
  genCalls : Nat
  publishCalls : List PublishOp
  deriving DecidableEq, Repr

/-- The empty call log. -/
def CallLog.empty : CallLog := ⟨0, 0, []⟩

/-- `Application._process_file_pair`: skip when unchanged; parse summary
then transcript (each may raise terminally or report a content error);
generate the note; look up existing state; publish; record state only on
publish success.  When a record exists for the pair,
`_create_or_update_note` evaluates `existing_state["bear_note_id"]` on the
`ProcessedFile` dataclass returned by `get_file_state`; a dataclass is not
subscriptable, so this raises `TypeError` before `update_note` is ever
invoked, the catch-all wraps it in `NonRetryableError`, and the publish
step is terminal there without any Bear call.  Only when no record exists
is `create_note` invoked.  Every failure path returns with the state
untouched (the source logs and returns). -/
def processFilePair (env : OrchEnv) (st : StateMap) (mf : MatchedFiles) :
    StateMap × CallLog :=
  if hasFilesChanged env.fs st mf = false then (st, CallLog.empty)
  else
    match env.parse mf.summary.path with
    | .raised => (st, ⟨1, 0, []⟩)
    | .ok summary_content =>
      if summary_content.error.isSome then (st, ⟨1, 0, []⟩)
      else
        match env.parse mf.transcript.path with
        | .raised => (st, ⟨2, 0, []⟩)
        | .ok transcript_content =>
          if transcript_content.error.isSome then (st, ⟨2, 0, []⟩)
          else
            if (env.gen mf).error.isSome then (st, ⟨2, 1, []⟩)
            else
              match getFileState st mf with
              | some _ => (st, ⟨2, 1, []⟩)
              | none =>
                match env.bear PublishOp.create (env.gen mf) with
                | .raised => (st, ⟨2, 1, [PublishOp.create]⟩)
                | .ok note_id =>
                    (updateFileState env.fs env.now st mf note_id,
                     ⟨2, 1, [PublishOp.create]⟩)

/-- The per-pair loop of `Application.process_directory`: each pair is
processed in order, failures of one pair never stop the loop. -/
def processPairs (env : OrchEnv) (st : StateMap) (pairs : List MatchedFiles) :
    StateMap :=
  pairs.foldl (fun s p => (processFilePair env s p).1) st

/-! ## State loading and backup restoration (`StateManager._load_state`,
`StateManager._restore_from_backup`) -/

/-- Outcome of reading and parsing one on-disk snapshot document.  `good`
are the entries successfully constructed and inserted before any failure;
`truncated` is true when an exception occurred (unreadable file or JSON
failure: `good = []`; a malformed entry after some valid ones: `good`
nonempty). -/
structure ParsedDoc where
  good : List ProcessedFile
  truncated : Bool
  deriving DecidableEq, Repr

/-- The key under which `_load_state` files an entry
(`Path(entry.summary_path).name` and likewise for the transcript). -/
def entryKey (e : ProcessedFile) : String :=
  pairKey e.summary_path e.transcript_path

/-- Insert a list of parsed entries into the in-memory dict, in order. -/
def insertEntries (m : StateMap) (es : List ProcessedFile) : StateMap :=
  es.foldl (fun m e => stInsert m (entryKey e) e) m

/-- The on-disk situation seen by `_load_state`: the snapshot file content
(`none` when the file does not exist) and the backup files sorted newest
first (as `_restore_from_backup` sorts them, reversed by timestamped
name). -/
structure Disk where
  snapshot : Option ParsedDoc
  backups : List ParsedDoc
  deriving DecidableEq, Repr

/-- `StateManager._load_state` with its mutual recursion through
`_restore_from_backup` made explicit.  On a parse failure the newest backup
is copied over the snapshot and loading restarts on it; the backup list
never changes, so a corrupted newest backup is retried until Python's
recursion limit (`fuel`) is hit, at which point the `RecursionError` is
caught and loading returns with what was accumulated. -/
def loadStateAux (backups : List ParsedDoc) :
    Nat → StateMap → Option ParsedDoc → StateMap
  | _, st, none => st
  | fuel, st, some doc =>
    let st' := insertEntries st doc.good
    if doc.truncated then
      match backups, fuel with
      | [], _ => st'
      | _ :: _, 0 => st'
      | b :: _, fuel + 1 => loadStateAux backups fuel st' (some b)
    else st'

/-- `StateManager._load_state` starting from the empty in-memory state. -/
def loadState (fuel : Nat) (disk : Disk) : StateMap :=
  loadStateAux disk.backups fuel emptyState disk.snapshot

/-- The observable result of `loadState` (for any positive fuel): the
snapshot's surviving entries, plus — when the snapshot was corrupt and a
backup exists — the newest backup's surviving entries. -/
def loadResult (disk : Disk) : StateMap :=
  match disk.snapshot with
  | none => emptyState
  | some doc =>
    let st := insertEntries emptyState doc.good
    if doc.truncated then
      match disk.backups with
      | [] => st
      | b :: _ => insertEntries st b.good
    else st

/-! ## The retry wrapper (`with_retry` in `app.py`) -/

/-- What one attempt of the wrapped operation does: return a value, raise
`RetryableError`, raise `NonRetryableError`, or raise some other exception
(which the wrapper rewraps as non-retryable). -/
inductive AttemptOutcome (α : Type) where
  | ok (val : α)
  | retryable
  | nonRetryable
  | unexpected
  deriving DecidableEq, Repr

/-- Observable behaviour of one call of a `with_retry`-wrapped function:
the returned value (`none` when a `NonRetryableError` reaches the caller),
the number of attempts of the wrapped operation, and the sequence of
`time.sleep` delays in seconds. -/
structure RetryResult (α : Type) where
  result : Option α
  attempts : Nat
  sleeps : List ℚ
  deriving DecidableEq, Repr

/-- The loop body of `with_retry`: `remaining` counts the loop iterations
left out of `max_retries + 1`; a retryable failure sleeps `current_delay`
and doubles it, except on the last iteration (where `attempt <
max_retries` fails); exhausting the loop raises `NonRetryableError`. -/
def runRetryAux (outcomes : Nat → AttemptOutcome α) :
    Nat → Nat → ℚ → RetryResult α
  | _, 0, _ => ⟨none, 0, []⟩
  | attempt, remaining + 1, current_delay =>
    match outcomes attempt with
    | .ok a => ⟨some a, 1, []⟩
    | .nonRetryable => ⟨none, 1, []⟩
    | .unexpected => ⟨none, 1, []⟩
    | .retryable =>
      if remaining = 0 then
        let rest := runRetryAux outcomes (attempt + 1) remaining current_delay
        ⟨rest.result, rest.attempts + 1, rest.sleeps⟩
      else
        let rest := runRetryAux outcomes (attempt + 1) remaining
          (2 * current_delay)
        ⟨rest.result, rest.attempts + 1, current_delay :: rest.sleeps⟩

/-- `with_retry(max_retries, delay)` applied to an operation whose `i`-th
attempt behaves as `outcomes i`. -/
def withRetry (max_retries : Nat) (delay : ℚ)
    (outcomes : Nat → AttemptOutcome α) : RetryResult α :=
  runRetryAux outcomes 0 (max_retries + 1) delay

/-! ## Pair matching (`FileMatcher.match_files`) -/

/-- The role extracted from a filename by `FILENAME_PATTERN`
(`summary` or `transcript`). -/
inductive Role where
  | summary
  | transcript
  deriving DecidableEq, Repr

/-- One bucket of `file_groups`: the two role slots. -/
structure FileGroup where
  summary : Option MonitoredFile := none
  transcript : Option MonitoredFile := none
  deriving DecidableEq, Repr

/-- A `file_groups` key: `(meeting_name, meeting_date)`. -/
abbrev GroupKey := String × ℚ

/-- `file_groups[matched_key][file_type] = file`. -/
def setSlot (g : FileGroup) (r : Role) (f : MonitoredFile) : FileGroup :=
  match r with
  | .summary => { g with summary := some f }
  | .transcript => { g with transcript := some f }

/-- The search for an existing bucket: first key in insertion order with
the same meeting name whose timestamp differs by less than 5 seconds. -/
def findMatchedKey (groups : List (GroupKey × FileGroup))
    (meeting_name : String) (meeting_date : ℚ) : Option GroupKey :=
  (groups.find? (fun kv =>
    decide (kv.1.1 = meeting_name ∧ |kv.1.2 - meeting_date| < 5))).map
    (fun kv => kv.1)

/-- Update the (unique) bucket with the given key in place. -/
def updateGroup (groups : List (GroupKey × FileGroup)) (k : GroupKey)
    (r : Role) (f : MonitoredFile) : List (GroupKey × FileGroup) :=
  groups.map (fun kv => if kv.1 = k then (kv.1, setSlot kv.2 r f) else kv)

/-- The body of the grouping loop of `FileMatcher.match_files`: skip
unparseable files, otherwise add the file to an existing bucket within the
5-second window or open a new one. -/
def addFile (p : MonitoredFile → Option (ℚ × String × Role))
    (groups : List (GroupKey × FileGroup)) (file : MonitoredFile) :
    List (GroupKey × FileGroup) :=
  match p file with
  | none => groups
  | some (meeting_date, meeting_name, file_type) =>
    match findMatchedKey groups meeting_name meeting_date with
    | some k => updateGroup groups k file_type file
    | none =>
        groups ++ [((meeting_name, meeting_date),
          setSlot ⟨none, none⟩ file_type file)]

/-- The grouping loop of `FileMatcher.match_files`, parametrised by the
result of `FileMatcher._parse_filename` on each file. -/
def buildGroups (p : MonitoredFile → Option (ℚ × String × Role))
    (files : List MonitoredFile) : List (GroupKey × FileGroup) :=
  files.foldl (addFile p) []

/-- `FileMatcher.match_files`: group, then emit a `MatchedFiles` for every
bucket with both slots filled. -/
def matchFiles (p : MonitoredFile → Option (ℚ × String × Role))
    (files : List MonitoredFile) : List MatchedFiles :=
  (buildGroups p files).filterMap (fun kv =>
    match kv.2.summary, kv.2.transcript with
    | some s, some t => some ⟨s, t, kv.1.2, kv.1.1⟩
    | _, _ => none)

/-! ## Backup rotation (`StateManager._create_backup`, `_save_state`) -/

/-- The state directory as seen by `_create_backup`: whether the snapshot
file exists, and the timestamps (backup file names) of the existing backup
files. -/
structure BackupFS where
  stateExists : Bool
  backups : List Nat
  deriving DecidableEq, Repr

/-- The pruning loop: `while len(backup_files) > backup_count`, unlink the
head of the name-sorted list (the oldest). -/
def pruneBackups (backup_count : Nat) (backup_files : List Nat) : List Nat :=
  backup_files.drop (backup_files.length - backup_count)

/-- `shutil.copy2` to the timestamped backup name: a new directory entry,
unless a backup with that exact name already exists (then overwritten). -/
def globAdd (backups : List Nat) (t : Nat) : List Nat :=
  if t ∈ backups then backups else backups ++ [t]

/-- `StateManager._create_backup` at time `t`: no-op when the snapshot does
not exist; otherwise copy the snapshot to a timestamped backup, list all
backups sorted by name (oldest first), and delete the oldest beyond
`backup_count`. -/
def createBackup (backup_count : Nat) (t : Nat) (fs : BackupFS) : BackupFS :=
  if fs.stateExists then
    let backup_files := List.insertionSort (· ≤ ·) (globAdd fs.backups t)
    { fs with backups := pruneBackups backup_count backup_files }
  else fs

/-- `StateManager._save_state` at time `t`: back up first, then write the
snapshot (which exists afterwards). -/
def saveState (backup_count : Nat) (t : Nat) (fs : BackupFS) : BackupFS :=
  let fs' := createBackup backup_count t fs
  { fs' with stateExists := true }

/-- A sequence of successful updates at the given times (each
`update_file_state` call ends in `_save_state`). -/
def applyUpdates (backup_count : Nat) (fs : BackupFS) (ts : List Nat) :
    BackupFS :=
  ts.foldl (fun f t => saveState backup_count t f) fs

/-! ## Directory scanning (`FileMonitor.scan_directories`) -/

/-- The loop state of `scan_directories`: the result list, the
`_known_files` dict, and the `current_files` set (as a list). -/
structure ScanState where
  changed_files : List MonitoredFile
  known_files : String → Option MonitoredFile
  current_files : List String

/-- The new-or-modified test: unseen path, or stored `(mtime, size)`
differing from the current one. -/
def fileChanged (prev : Option MonitoredFile) (f : MonitoredFile) : Bool :=
  match prev with
  | none => true
  | some old =>
      decide (old.last_modified ≠ f.last_modified ∨
              old.file_size ≠ f.file_size)

/-- The per-file body of the scan loop: record the path as current, append
to the result when new or modified, and update `_known_files`. -/
def processEntry (st : ScanState) (f : MonitoredFile) : ScanState :=
  { changed_files :=
      if fileChanged (st.known_files f.path) f
      then st.changed_files ++ [f] else st.changed_files
    known_files := fun p => if p = f.path then some f else st.known_files p
    current_files := st.current_files ++ [f.path] }

/-- `FileMonitor.scan_directories`: iterate over both directory listings
(`none` models a listing that raised — the exception is caught and that
directory skipped), then drop every known path absent from
`current_files`. -/
def scanDirectories (dir1 dir2 : Option (List MonitoredFile))
    (known : String → Option MonitoredFile) :
    List MonitoredFile × (String → Option MonitoredFile) :=
  let st0 : ScanState := ⟨[], known, []⟩
  let st1 := match dir1 with
    | none => st0
    | some l => l.foldl processEntry st0
  let st2 := match dir2 with
    | none => st1
    | some l => l.foldl processEntry st1
  (st2.changed_files,
   fun p => if p ∈ st2.current_files then st2.known_files p else none)

/-! ## Theorems about the retry wrapper -/

/-- The retry loop runs at most `remaining` attempts. -/
lemma runRetryAux_attempts_le (o : Nat → AttemptOutcome α) :
    ∀ (r i : Nat) (d : ℚ), (runRetryAux o i r d).attempts ≤ r := by
  intro r
  induction r with
  | zero => intro i d; simp [runRetryAux]
  | succ r ih =>
    intro i d
    unfold runRetryAux
    cases h : o i with
    | ok a => simp
    | nonRetryable => simp
    | unexpected => simp
    | retryable =>
      by_cases hr : r = 0
      · subst hr
        simp [runRetryAux]
      · have hrec := ih (i + 1) (2 * d)
        simp only [hr, if_false]
        omega

/-- The sleeps performed by the retry loop are successive doublings of the
starting delay. -/
lemma runRetryAux_sleeps_doubling (o : Nat → AttemptOutcome α) :
    ∀ (r i : Nat) (d : ℚ),
      (runRetryAux o i r d).sleeps =
        (List.range (runRetryAux o i r d).sleeps.length).map
          (fun k => d * 2 ^ k) := by
  intro r
  induction r with
  | zero => intro i d; simp [runRetryAux]
  | succ r ih =>
    intro i d
    unfold runRetryAux
    cases h : o i with
    | ok a => simp
    | nonRetryable => simp
    | unexpected => simp
    | retryable =>
      by_cases hr : r = 0
      · subst hr
        simp [runRetryAux]
      · have hrest := ih (i + 1) (2 * d)
        simp only [hr, if_false]
        simp only [List.length_cons, List.range_succ_eq_map, List.map_cons,
          List.map_map]
        have hf : ((fun k => d * 2 ^ k) ∘ Nat.succ) =
            (fun k => 2 * d * 2 ^ k) := by
          funext k
          simp [Function.comp, pow_succ]
          ring
        have hhead : d * 2 ^ (0 : Nat) = d := by simp
        rw [hhead, hf, ← hrest]

/-- When every attempt fails retryably, the loop exhausts all
`remaining` attempts and raises a terminal error. -/
lemma runRetryAux_exhaust (o : Nat → AttemptOutcome α)
    (ho : ∀ i, o i = AttemptOutcome.retryable) :
    ∀ (r i : Nat) (d : ℚ),
      (runRetryAux o i r d).result = none ∧
        (runRetryAux o i r d).attempts = r := by
  intro r
  induction r with
  | zero => intro i d; simp [runRetryAux]
  | succ r ih =>
    intro i d
    unfold runRetryAux
    rw [ho i]
    by_cases hr : r = 0
    · subst hr
      simp [runRetryAux]
    · simp only [hr, if_false]
      exact ⟨(ih (i + 1) (2 * d)).1, by rw [(ih (i + 1) (2 * d)).2]⟩

/-- C4: with the default configuration (`max_retries = 3`), a retryable
failure triggers at most 3 additional attempts after the first (at most 4
attempts total); the inter-attempt delays start at the configured delay and
double after every retryable failure; a publisher failing retryably twice
then succeeding yields exactly 3 attempts with sleeps of 1.0s then 2.0s and
a returned success; and exhausting the retries converts the error to a
terminal `NonRetryableError` (no value returned) after exactly 4
attempts. -/
theorem c4_retry_backoff (o o' : Nat → AttemptOutcome Unit) (d : ℚ)
    (ho' : ∀ i, o' i = AttemptOutcome.retryable) :
    (withRetry 3 d o).attempts ≤ 3 + 1
    ∧ (withRetry 3 d o).sleeps =
        (List.range (withRetry 3 d o).sleeps.length).map (fun k => d * 2 ^ k)
    ∧ withRetry 3 1 (fun i => if i < 2 then AttemptOutcome.retryable
        else AttemptOutcome.ok ()) = ⟨some (), 3, [1, 2]⟩
    ∧ (withRetry 3 1 o').result = none
    ∧ (withRetry 3 1 o').attempts = 3 + 1 := by
  refine ⟨runRetryAux_attempts_le o 4 0 d,
    runRetryAux_sleeps_doubling o 4 0 d, ?_,
    (runRetryAux_exhaust o' ho' 4 0 1).1,
    (runRetryAux_exhaust o' ho' 4 0 1).2⟩
  norm_num [withRetry, runRetryAux]

/-- Witness for `c4_retry_backoff` at a concrete operation (every attempt
retryable for the exhaustion part, first attempt succeeding for the bound
part). -/
theorem c4_retry_backoff_witness :
    (∀ i : Nat, (fun _ : Nat => (AttemptOutcome.retryable : AttemptOutcome Unit)) i
        = AttemptOutcome.retryable)
    ∧ ((withRetry 3 (1 : ℚ) (fun _ => AttemptOutcome.ok ())).attempts ≤ 3 + 1
      ∧ (withRetry 3 (1 : ℚ) (fun _ => AttemptOutcome.ok ())).sleeps =
          (List.range (withRetry 3 (1 : ℚ)
            (fun _ => AttemptOutcome.ok ())).sleeps.length).map
            (fun k => (1 : ℚ) * 2 ^ k)
      ∧ withRetry 3 1 (fun i => if i < 2 then AttemptOutcome.retryable
          else AttemptOutcome.ok ()) = ⟨some (), 3, [1, 2]⟩
      ∧ (withRetry 3 1 (fun _ : Nat =>
          (AttemptOutcome.retryable : AttemptOutcome Unit))).result = none
      ∧ (withRetry 3 1 (fun _ : Nat =>
          (AttemptOutcome.retryable : AttemptOutcome Unit))).attempts = 3 + 1) :=
  ⟨fun _ => rfl,
    c4_retry_backoff (fun _ => AttemptOutcome.ok ())
      (fun _ => AttemptOutcome.retryable) 1 (fun _ => rfl)⟩

/-! ## Theorems about the per-pair orchestration -/

/-- Case analysis on `processFilePair`: either the state is returned
untouched, or no record existed for the pair, the `create_note` call
reported success and the state holds the freshly recorded entry — every
other path, including the `TypeError` raised on the existing-record path,
leaves the state alone. -/
lemma processFilePair_result (env : OrchEnv) (st : StateMap)
    (mf : MatchedFiles) :
    (processFilePair env st mf).1 = st ∨
      ∃ note_id,
        getFileState st mf = none
        ∧ env.bear PublishOp.create (env.gen mf) = PublishOutcome.ok note_id
        ∧ hasFilesChanged env.fs st mf = true
        ∧ (∃ sc, env.parse mf.summary.path = ParseOutcome.ok sc
            ∧ sc.error = none)
        ∧ (∃ tc, env.parse mf.transcript.path = ParseOutcome.ok tc
            ∧ tc.error = none)
        ∧ (env.gen mf).error = none
        ∧ (processFilePair env st mf).1 =
            updateFileState env.fs env.now st mf note_id := by
  unfold processFilePair
  by_cases h0 : hasFilesChanged env.fs st mf = false
  · left
    rw [if_pos h0]
  · rw [if_neg h0]
    cases h1 : env.parse mf.summary.path with
    | raised => left; rfl
    | ok sc =>
      dsimp only
      by_cases h2 : sc.error.isSome = true
      · left
        rw [if_pos h2]
      · rw [if_neg h2]
        cases h3 : env.parse mf.transcript.path with
        | raised => left; rfl
        | ok tc =>
          dsimp only
          by_cases h4 : tc.error.isSome = true
          · left
            rw [if_pos h4]
          · rw [if_neg h4]
            by_cases h5 : (env.gen mf).error.isSome = true
            · left
              rw [if_pos h5]
            · rw [if_neg h5]
              cases hex : getFileState st mf with
              | some ps => left; rfl
              | none =>
                dsimp only
                cases h6 : env.bear PublishOp.create (env.gen mf) with
                | raised => left; rfl
                | ok note_id =>
                  dsimp only
                  right
                  refine ⟨note_id, rfl, rfl, ?_, ⟨sc, rfl, ?_⟩,
                    ⟨tc, rfl, ?_⟩, ?_, rfl⟩
                  · revert h0
                    cases hasFilesChanged env.fs st mf <;> simp
                  · revert h2
                    cases sc.error <;> simp
                  · revert h4
                    cases tc.error <;> simp
                  · revert h5
                    cases (env.gen mf).error <;> simp

/-- C7: a pair whose processing fails terminally at any step — a parse
raising, a parse reporting a content error, a generation error, or the
publish step raising (which includes retry exhaustion and the `TypeError`
raised on the existing-record path before any Bear call) — leaves the
state untouched for that pair; processing a list of pairs then continues
with the next pair from the same state; and in general the state changes
only when no record existed and the `create_note` call reports success. -/
theorem c7_terminal_failure_isolated (env : OrchEnv) (st : StateMap)
    (mf : MatchedFiles) (rest : List MatchedFiles)
    (hfail :
      env.parse mf.summary.path = ParseOutcome.raised
      ∨ (∃ sc, env.parse mf.summary.path = ParseOutcome.ok sc
          ∧ sc.error.isSome = true)
      ∨ env.parse mf.transcript.path = ParseOutcome.raised
      ∨ (∃ tc, env.parse mf.transcript.path = ParseOutcome.ok tc
          ∧ tc.error.isSome = true)
      ∨ (env.gen mf).error.isSome = true
      ∨ (∃ ps, getFileState st mf = some ps)
      ∨ env.bear PublishOp.create (env.gen mf) = PublishOutcome.raised) :
    (processFilePair env st mf).1 = st
    ∧ processPairs env st (mf :: rest) = processPairs env st rest
    ∧ ∀ st' : StateMap, (processFilePair env st' mf).1 ≠ st' →
        getFileState st' mf = none
        ∧ ∃ note_id, env.bear PublishOp.create (env.gen mf) =
            PublishOutcome.ok note_id := by
  have h1 : (processFilePair env st mf).1 = st := by
    rcases processFilePair_result env st mf with h | h
    · exact h
    · obtain ⟨id, hnone, hbear, _, ⟨sc, hsc, hsce⟩, ⟨tc, htc, htce⟩, hgen, _⟩ := h
      exfalso
      rcases hfail with h | ⟨sc', hsc', hsce'⟩ | h | ⟨tc', htc', htce'⟩
        | h | ⟨ps, hps⟩ | h
      · rw [h] at hsc
        exact ParseOutcome.noConfusion hsc
      · rw [hsc'] at hsc
        cases hsc
        rw [hsce] at hsce'
        simp at hsce'
      · rw [h] at htc
        exact ParseOutcome.noConfusion htc
      · rw [htc'] at htc
        cases htc
        rw [htce] at htce'
        simp at htce'
      · rw [hgen] at h
        simp at h
      · rw [hnone] at hps
        exact Option.noConfusion hps
      · rw [h] at hbear
        exact PublishOutcome.noConfusion hbear
  refine ⟨h1, ?_, ?_⟩
  · simp [processPairs, h1]
  · intro st' hne
    rcases processFilePair_result env st' mf with h | h
    · exact absurd h hne
    · obtain ⟨id, hnone, hbear, _⟩ := h
      exact ⟨hnone, id, hbear⟩

/-- C1 (code bug): when a changed pair with an existing `PairRecord`
reaches the publish step, `_create_or_update_note` subscripts the
`ProcessedFile` dataclass (`existing_state["bear_note_id"]`), which raises
`TypeError` before `update_note` is ever invoked; the error is wrapped in
`NonRetryableError`, so no Bear operation at all is performed — in
particular never the update with the stored artifact id the claim
describes — and the pair stays unrecorded.  `create_note` is reached only
when no record exists. -/
theorem c1_existing_record_never_reaches_update (env : OrchEnv)
    (st : StateMap) (mf : MatchedFiles) (sc tc : PDFContent)
    (ps : ProcessedFile)
    (hch : hasFilesChanged env.fs st mf = true)
    (hps : env.parse mf.summary.path = ParseOutcome.ok sc)
    (hse : sc.error = none)
    (hpt : env.parse mf.transcript.path = ParseOutcome.ok tc)
    (hte : tc.error = none)
    (hge : (env.gen mf).error = none)
    (hex : getFileState st mf = some ps) :
    (processFilePair env st mf).2.publishCalls = []
    ∧ (processFilePair env st mf).1 = st
    ∧ (∀ st' : StateMap, getFileState st' mf = none →
        (processFilePair env st' mf).2.publishCalls = [PublishOp.create]) := by
  have hrun : processFilePair env st mf = (st, ⟨2, 1, []⟩) := by
    unfold processFilePair
    rw [if_neg (by simp [hch]), hps]
    dsimp only
    rw [if_neg (by simp [hse]), hpt]
    dsimp only
    rw [if_neg (by simp [hte]), if_neg (by simp [hge]), hex]
  refine ⟨by rw [hrun], by rw [hrun], ?_⟩
  intro st' hnone
  unfold processFilePair
  by_cases h0 : hasFilesChanged env.fs st' mf = false
  · exfalso
    unfold hasFilesChanged at h0
    rw [hnone] at h0
    exact Bool.noConfusion h0
  · rw [if_neg h0, hps]
    dsimp only
    rw [if_neg (by simp [hse]), hpt]
    dsimp only
    rw [if_neg (by simp [hte]), if_neg (by simp [hge]), hnone]
    cases hbear : env.bear PublishOp.create (env.gen mf) <;> rfl

/-- C3: after a first fully successful run on a pair (no prior record, so
the create path is taken, publish succeeded and the pair was recorded)
with the file contents unchanged, the second run is a no-op: it performs
no parse, generation, or publish call, so the publish happened exactly
once across the two runs. -/
theorem c3_second_run_noop (env : OrchEnv) (st0 : StateMap)
    (mf : MatchedFiles) (sc tc : PDFContent) (note_id : String)
    (hch : hasFilesChanged env.fs st0 mf = true)
    (hnew : getFileState st0 mf = none)
    (hps : env.parse mf.summary.path = ParseOutcome.ok sc)
    (hse : sc.error = none)
    (hpt : env.parse mf.transcript.path = ParseOutcome.ok tc)
    (hte : tc.error = none)
    (hge : (env.gen mf).error = none)
    (hbear : env.bear PublishOp.create (env.gen mf) =
      PublishOutcome.ok note_id) :
    (processFilePair env st0 mf).2.publishCalls.length = 1
    ∧ processFilePair env (processFilePair env st0 mf).1 mf =
        ((processFilePair env st0 mf).1, CallLog.empty)
    ∧ (processFilePair env st0 mf).2.publishCalls.length
        + (processFilePair env (processFilePair env st0 mf).1 mf).2.publishCalls.length
        = 1 := by
  have hrun1 : processFilePair env st0 mf =
      (updateFileState env.fs env.now st0 mf note_id,
       ⟨2, 1, [PublishOp.create]⟩) := by
    unfold processFilePair
    rw [if_neg (by simp [hch]), hps]
    dsimp only
    rw [if_neg (by simp [hse]), hpt]
    dsimp only
    rw [if_neg (by simp [hte]), if_neg (by simp [hge]), hnew, hbear]
  have hskip : hasFilesChanged env.fs
      (updateFileState env.fs env.now st0 mf note_id) mf = false := by
    unfold hasFilesChanged getFileState updateFileState stInsert
    simp
  have hrun2 : processFilePair env
      (updateFileState env.fs env.now st0 mf note_id) mf =
      (updateFileState env.fs env.now st0 mf note_id, CallLog.empty) := by
    unfold processFilePair
    rw [if_pos hskip]
  refine ⟨by rw [hrun1]; rfl, ?_, ?_⟩
  · rw [hrun1]
    exact hrun2
  · rw [hrun1]
    simp only [hrun2]
    rfl

/-- C10: hashing an unreadable file yields the empty string rather than an
exception; consequently a recorded pair with a non-empty stored hash whose
file became unreadable is reported as changed, and recording a pair while a
file is unreadable stores the empty string as that file's hash. -/
theorem c10_unreadable_file_hash (fs : FsEnv) (st : StateMap)
    (mf : MatchedFiles) (ps : ProcessedFile) (note_id now : String)
    (hstate : getFileState st mf = some ps)
    (hun : (fs.read mf.summary.path = none ∧ ps.summary_hash ≠ "")
         ∨ (fs.read mf.transcript.path = none ∧ ps.transcript_hash ≠ "")) :
    (∀ q, fs.read q = none → computeFileHash fs q = "")
    ∧ hasFilesChanged fs st mf = true
    ∧ (fs.read mf.summary.path = none →
        ∃ pf, getFileState (updateFileState fs now st mf note_id) mf = some pf
          ∧ pf.summary_hash = "")
    ∧ (fs.read mf.transcript.path = none →
        ∃ pf, getFileState (updateFileState fs now st mf note_id) mf = some pf
          ∧ pf.transcript_hash = "") := by
  refine ⟨?_, ?_, ?_, ?_⟩
  · intro q hq
    simp [computeFileHash, hq]
  · unfold hasFilesChanged
    rw [hstate]
    apply decide_eq_true
    rcases hun with ⟨hr, hh⟩ | ⟨hr, hh⟩
    · left
      simp [computeFileHash, hr]
      exact fun h => hh h.symm
    · right
      simp [computeFileHash, hr]
      exact fun h => hh h.symm
  · intro hr
    refine ⟨{ summary_path := mf.summary.path
              summary_hash := computeFileHash fs mf.summary.path
              transcript_path := mf.transcript.path
              transcript_hash := computeFileHash fs mf.transcript.path
              bear_note_id := note_id
              last_processed := now }, ?_, ?_⟩
    · simp [getFileState, updateFileState, stInsert]
    · simp [computeFileHash, hr]
  · intro hr
    refine ⟨{ summary_path := mf.summary.path
              summary_hash := computeFileHash fs mf.summary.path
              transcript_path := mf.transcript.path
              transcript_hash := computeFileHash fs mf.transcript.path
              bear_note_id := note_id
              last_processed := now }, ?_, ?_⟩
    · simp [getFileState, updateFileState, stInsert]
    · simp [computeFileHash, hr]

/-! ## Concrete fixtures used by the witness theorems -/

/-- A concrete summary file. -/
def wSummary : MonitoredFile := ⟨"s.pdf", 0, 10⟩

/-- A concrete transcript file. -/
def wTranscript : MonitoredFile := ⟨"t.pdf", 1, 20⟩

/-- A concrete matched pair. -/
def wPair : MatchedFiles := ⟨wSummary, wTranscript, 0, "m"⟩

/-- A concrete stored record for `wPair`. -/
def wRecord : ProcessedFile := ⟨"s.pdf", "h1", "t.pdf", "h2", "note-1", "t0"⟩

/-- A filesystem in which every file reads successfully. -/
def wFs : FsEnv := ⟨fun _ => some "bytes", fun c => c⟩

/-- A filesystem in which every read raises. -/
def wFsNone : FsEnv := ⟨fun _ => none, fun c => c⟩

/-- An environment in which every step succeeds. -/
def wEnv : OrchEnv :=
  ⟨wFs, fun _ => ParseOutcome.ok ⟨"T", "C", 1, none⟩,
   fun _ => ⟨"T", "B", none⟩, fun _ _ => PublishOutcome.ok "note-2", "t1"⟩

/-- An environment in which every parse raises terminally. -/
def wEnvFail : OrchEnv :=
  ⟨wFs, fun _ => ParseOutcome.raised,
   fun _ => ⟨"T", "B", none⟩, fun _ _ => PublishOutcome.ok "note-2", "t1"⟩

/-- A state holding the record `wRecord` for `wPair`. -/
def wState : StateMap :=
  stInsert emptyState (pairKey "s.pdf" "t.pdf") wRecord

/-- Witness for `c1_existing_record_never_reaches_update`: the state
holding `wRecord` for `wPair`, whose files have changed under `wFs` —
processing makes no Bear call and leaves the record untouched. -/
theorem c1_existing_record_never_reaches_update_witness :
    hasFilesChanged wEnv.fs wState wPair = true
    ∧ getFileState wState wPair = some wRecord
    ∧ ((processFilePair wEnv wState wPair).2.publishCalls = []
      ∧ (processFilePair wEnv wState wPair).1 = wState
      ∧ (∀ st' : StateMap, getFileState st' wPair = none →
          (processFilePair wEnv st' wPair).2.publishCalls =
            [PublishOp.create])) := by
  have hex : getFileState wState wPair = some wRecord := by
    simp [getFileState, wState, stInsert, wPair, wSummary, wTranscript]
  have hch : hasFilesChanged wEnv.fs wState wPair = true := by
    unfold hasFilesChanged
    rw [hex]
    simp [computeFileHash, wEnv, wFs, wRecord]
  exact ⟨hch, hex,
    c1_existing_record_never_reaches_update wEnv wState wPair
      ⟨"T", "C", 1, none⟩ ⟨"T", "C", 1, none⟩ wRecord
      hch rfl rfl rfl rfl rfl hex⟩

/-- Witness for `c3_second_run_noop` in the all-success environment with
an empty initial state. -/
theorem c3_second_run_noop_witness :
    hasFilesChanged wEnv.fs emptyState wPair = true
    ∧ getFileState emptyState wPair = none
    ∧ wEnv.bear PublishOp.create (wEnv.gen wPair) = PublishOutcome.ok "note-2"
    ∧ ((processFilePair wEnv emptyState wPair).2.publishCalls.length = 1
      ∧ processFilePair wEnv (processFilePair wEnv emptyState wPair).1 wPair =
          ((processFilePair wEnv emptyState wPair).1, CallLog.empty)
      ∧ (processFilePair wEnv emptyState wPair).2.publishCalls.length
          + (processFilePair wEnv
              (processFilePair wEnv emptyState wPair).1 wPair).2.publishCalls.length
          = 1) :=
  ⟨rfl, rfl, rfl,
    c3_second_run_noop wEnv emptyState wPair
      ⟨"T", "C", 1, none⟩ ⟨"T", "C", 1, none⟩ "note-2"
      rfl rfl rfl rfl rfl rfl rfl rfl⟩

/-- Witness for `c7_terminal_failure_isolated`: in the environment whose
parses raise, processing leaves the empty state untouched. -/
theorem c7_terminal_failure_isolated_witness :
    wEnvFail.parse wPair.summary.path = ParseOutcome.raised
    ∧ ((processFilePair wEnvFail emptyState wPair).1 = emptyState
      ∧ processPairs wEnvFail emptyState (wPair :: []) =
          processPairs wEnvFail emptyState []
      ∧ ∀ st' : StateMap, (processFilePair wEnvFail st' wPair).1 ≠ st' →
          getFileState st' wPair = none
          ∧ ∃ note_id, wEnvFail.bear PublishOp.create (wEnvFail.gen wPair)
              = PublishOutcome.ok note_id) :=
  ⟨rfl,
    c7_terminal_failure_isolated wEnvFail emptyState wPair [] (Or.inl rfl)⟩

/-- Witness for `c10_unreadable_file_hash`: a stored record with non-empty
hashes whose files became unreadable. -/
theorem c10_unreadable_file_hash_witness :
    getFileState wState wPair = some wRecord
    ∧ (wFsNone.read wPair.summary.path = none ∧ wRecord.summary_hash ≠ "")
    ∧ ((∀ q, wFsNone.read q = none → computeFileHash wFsNone q = "")
      ∧ hasFilesChanged wFsNone wState wPair = true
      ∧ (wFsNone.read wPair.summary.path = none →
          ∃ pf, getFileState (updateFileState wFsNone "t2" wState wPair "note-3")
              wPair = some pf ∧ pf.summary_hash = "")
      ∧ (wFsNone.read wPair.transcript.path = none →
          ∃ pf, getFileState (updateFileState wFsNone "t2" wState wPair "note-3")
              wPair = some pf ∧ pf.transcript_hash = "")) := by
  have hstate : getFileState wState wPair = some wRecord := by
    simp [getFileState, wState, stInsert, wPair, wSummary, wTranscript]
  have hun : wFsNone.read wPair.summary.path = none
      ∧ wRecord.summary_hash ≠ "" := ⟨rfl, by simp [wRecord]⟩
  exact ⟨hstate, hun,
    c10_unreadable_file_hash wFsNone wState wPair wRecord "note-3" "t2"
      hstate (Or.inl hun)⟩

/-! ## Theorems about state loading and restoration -/

/-- Pointwise description of inserting a list of entries: the value at a
key is the last inserted entry with that key, else the original value. -/
lemma insertEntries_apply (es : List ProcessedFile) :
    ∀ (m : StateMap) (k : String),
      insertEntries m es k =
        match es.reverse.find? (fun e => decide (entryKey e = k)) with
        | some e => some e
        | none => m k := by
  induction es with
  | nil => intro m k; rfl
  | cons e es ih =>
    intro m k
    have hstep : insertEntries m (e :: es) =
        insertEntries (stInsert m (entryKey e) e) es := rfl
    rw [hstep, ih, List.reverse_cons, List.find?_append]
    cases hf : es.reverse.find? (fun e => decide (entryKey e = k)) with
    | some e' => rfl
    | none =>
      by_cases hk : entryKey e = k
      · simp [stInsert, hk, List.find?]
      · have hk' : ¬(k = entryKey e) := fun h => hk h.symm
        simp [stInsert, hk, hk', List.find?]

/-- Re-inserting the same entry list is a no-op. -/
lemma insertEntries_idem (m : StateMap) (es : List ProcessedFile) :
    insertEntries (insertEntries m es) es = insertEntries m es := by
  funext k
  rw [insertEntries_apply, insertEntries_apply]
  cases hf : es.reverse.find? (fun e => decide (entryKey e = k)) with
  | some e => rfl
  | none => rfl

/-- The restoration loop: reloading from a fixed newest backup reaches a
fixed point after one pass, whatever fuel remains. -/
lemma loadStateAux_loop (b : ParsedDoc) (rest : List ParsedDoc) :
    ∀ (fuel : Nat) (st : StateMap),
      loadStateAux (b :: rest) fuel st (some b) = insertEntries st b.good := by
  intro fuel
  induction fuel with
  | zero =>
    intro st
    unfold loadStateAux
    by_cases hb : b.truncated <;> simp [hb]
  | succ fuel ih =>
    intro st
    unfold loadStateAux
    by_cases hb : b.truncated
    · simp only [hb, if_true]
      rw [ih, insertEntries_idem]
    · simp [hb]

/-- C2 (amended): for any positive recursion budget, `load()` returns (the
embedding is total, matching the source's catch-all handlers) and the
resulting in-memory state is exactly `loadResult`: the snapshot's
successfully parsed entries, plus the newest backup's surviving entries
when the snapshot was corrupt — which is the empty state only when no
entry parsed. -/
theorem c2_load_restores_or_keeps_partial (fuel : Nat) (disk : Disk) :
    loadState (fuel + 1) disk = loadResult disk := by
  unfold loadState loadResult
  cases hs : disk.snapshot with
  | none => rfl
  | some d =>
    unfold loadStateAux
    by_cases hd : d.truncated
    · simp only [hd, if_true]
      cases hb : disk.backups with
      | nil => rfl
      | cons b rest => exact loadStateAux_loop b rest fuel _
    · simp [hd]

/-- C2 counterexample: a snapshot whose document parses far enough to yield
one valid entry before failing, with no backups, loads to a state that
still holds that entry — not to the empty state the claim demands. -/
theorem c2_counterexample :
    loadState 1000 ⟨some ⟨[wRecord], true⟩, []⟩ ≠ emptyState := by
  intro h
  have hval : loadState 1000 ⟨some ⟨[wRecord], true⟩, []⟩ (entryKey wRecord)
      = some wRecord := by
    simp [loadState, loadStateAux, insertEntries, stInsert, emptyState]
  rw [h] at hval
  simp [emptyState] at hval

/-! ## Theorems about backup rotation -/

/-- Pruning to the last `N` elements ignores any prefix when the suffix is
already long enough. -/
lemma pruneBackups_append_of_le (N : Nat) (c m : List Nat)
    (hm : N ≤ m.length) :
    pruneBackups N (c ++ m) = pruneBackups N m := by
  unfold pruneBackups
  have h1 : (c ++ m).length - N = c.length + (m.length - N) := by
    simp only [List.length_append]
    omega
  rw [h1, List.drop_append]

/-- Running the update sequence keeps exactly the last `N` backup
timestamps, provided times are strictly increasing and the store starts
within its retention bound. -/
lemma applyUpdates_backups (N : Nat) :
    ∀ (ts bs : List Nat), List.Sorted (· < ·) (bs ++ ts) → bs.length ≤ N →
      (applyUpdates N ⟨true, bs⟩ ts).backups = pruneBackups N (bs ++ ts) := by
  intro ts
  induction ts with
  | nil =>
    intro bs hsort hlen
    have h0 : bs.length - N = 0 := by omega
    simp [applyUpdates, pruneBackups, h0]
  | cons t ts ih =>
    intro bs hsort hlen
    have hlt : ∀ x ∈ bs, x < t := fun x hx =>
      (List.pairwise_append.mp hsort).2.2 x hx t (List.mem_cons_self t ts)
    have hnot : t ∉ bs := fun h => lt_irrefl t (hlt t h)
    have hadd : globAdd bs t = bs ++ [t] := by simp [globAdd, hnot]
    have hsub : (bs ++ [t]).Sublist (bs ++ t :: ts) :=
      (List.Sublist.refl bs).append
        (List.cons_sublist_cons.mpr (List.nil_sublist ts))
    have hsort' : List.Sorted (· < ·) (bs ++ [t]) :=
      List.Pairwise.sublist hsub hsort
    have hsortle : List.Sorted (· ≤ ·) (bs ++ [t]) :=
      hsort'.imp le_of_lt
    have hss : List.insertionSort (· ≤ ·) (bs ++ [t]) = bs ++ [t] :=
      List.Sorted.insertionSort_eq hsortle
    have hstep : applyUpdates N ⟨true, bs⟩ (t :: ts)
        = applyUpdates N ⟨true, pruneBackups N (bs ++ [t])⟩ ts := by
      simp [applyUpdates, saveState, createBackup, hadd, hss]
    rw [hstep]
    have hc : bs ++ [t] =
        (bs ++ [t]).take ((bs ++ [t]).length - N) ++ pruneBackups N (bs ++ [t]) :=
      (List.take_append_drop _ _).symm
    have hassoc : (bs ++ [t]) ++ ts = bs ++ t :: ts := by
      rw [List.append_assoc]
      rfl
    have hsortBts : List.Sorted (· < ·) (pruneBackups N (bs ++ [t]) ++ ts) := by
      have hall : List.Sorted (· < ·) ((bs ++ [t]) ++ ts) := by
        rw [hassoc]
        exact hsort
      rw [hc, List.append_assoc] at hall
      exact List.Pairwise.sublist (List.sublist_append_right _ _) hall
    have hlen2 : (pruneBackups N (bs ++ [t])).length ≤ N := by
      simp only [pruneBackups, List.length_drop]
      omega
    rw [ih (pruneBackups N (bs ++ [t])) hsortBts hlen2]
    by_cases hN : (bs ++ [t]).length ≤ N
    · have h0 : (bs ++ [t]).length - N = 0 := by omega
      have hB : pruneBackups N (bs ++ [t]) = bs ++ [t] := by
        unfold pruneBackups
        rw [h0]
        rfl
      rw [hB, hassoc]
    · have hBlen : (pruneBackups N (bs ++ [t])).length = N := by
        simp only [pruneBackups, List.length_drop]
        omega
      have hge : N ≤ (pruneBackups N (bs ++ [t]) ++ ts).length := by
        simp only [List.length_append]
        omega
      have heq : (bs ++ [t]).take ((bs ++ [t]).length - N) ++
          (pruneBackups N (bs ++ [t]) ++ ts) = bs ++ t :: ts := by
        rw [← List.append_assoc, ← hc, hassoc]
      rw [← pruneBackups_append_of_le N _ _ hge, heq]

/-- C6: with retention count `N`, starting from a store whose snapshot
exists and with no backups yet, a run of `N + 2` successful updates at
strictly increasing timestamps leaves exactly `N` backup files, and they
are the `N` most recently created (all but the two oldest of the update
timestamps). -/
theorem c6_backup_rotation (N : Nat) (ts : List Nat)
    (hN : 1 ≤ N) (hlen : ts.length = N + 2)
    (hsort : List.Sorted (· < ·) ts) :
    (applyUpdates N ⟨true, []⟩ ts).backups = ts.drop 2
    ∧ (ts.drop 2).length = N := by
  have h := applyUpdates_backups N ts [] (by simpa using hsort)
    (by simp)
  constructor
  · rw [h]
    unfold pruneBackups
    have h2 : ([] ++ ts).length - N = 2 := by simp [hlen]
    rw [h2]
    simp
  · simp [hlen]

/-- Witness for `c6_backup_rotation` with `N = 1` and three updates. -/
theorem c6_backup_rotation_witness :
    (1 ≤ 1 ∧ [10, 20, 30].length = 1 + 2
      ∧ List.Sorted (· < ·) [10, 20, 30])
    ∧ ((applyUpdates 1 ⟨true, []⟩ [10, 20, 30]).backups = [10, 20, 30].drop 2
      ∧ ([10, 20, 30].drop 2).length = 1) :=
  ⟨⟨le_refl 1, rfl, by decide⟩,
    c6_backup_rotation 1 [10, 20, 30] (le_refl 1) rfl (by decide)⟩

/-! ## Theorems about directory scanning -/

/-- The scan loop records every listed path as current. -/
lemma foldl_current (l : List MonitoredFile) :
    ∀ st : ScanState, (l.foldl processEntry st).current_files
      = st.current_files ++ l.map (fun f => f.path) := by
  induction l with
  | nil => intro st; simp
  | cons f l ih =>
    intro st
    rw [List.foldl_cons, ih]
    simp [processEntry]

/-- Full characterisation of one pass of the scan loop over a
duplicate-free listing: the result extends the accumulator with exactly
the new-or-modified files, every listed file's entry is refreshed, and
unlisted paths keep their old entry. -/
lemma scan_foldl (l : List MonitoredFile) :
    ∀ st : ScanState, (l.map (fun f => f.path)).Nodup →
      ((l.foldl processEntry st).changed_files =
          st.changed_files ++
            l.filter (fun f => fileChanged (st.known_files f.path) f))
      ∧ (∀ f ∈ l, (l.foldl processEntry st).known_files f.path = some f)
      ∧ (∀ p, p ∉ l.map (fun f => f.path) →
          (l.foldl processEntry st).known_files p = st.known_files p) := by
  induction l with
  | nil => intro st h; simp
  | cons f l ih =>
    intro st hnd
    have hfp : f.path ∉ l.map (fun f => f.path) :=
      (List.nodup_cons.mp hnd).1
    have hnd' : (l.map (fun f => f.path)).Nodup := (List.nodup_cons.mp hnd).2
    obtain ⟨h1, h2, h3⟩ := ih (processEntry st f) hnd'
    have hknown_eq : ∀ g ∈ l,
        (processEntry st f).known_files g.path = st.known_files g.path := by
      intro g hg
      have hgf : g.path ≠ f.path := by
        intro h
        exact hfp (h ▸ List.mem_map_of_mem (fun f => f.path) hg)
      simp [processEntry, hgf]
    refine ⟨?_, ?_, ?_⟩
    · rw [List.foldl_cons, h1, List.filter_cons]
      have hfc : l.filter
            (fun g => fileChanged ((processEntry st f).known_files g.path) g)
          = l.filter (fun g => fileChanged (st.known_files g.path) g) :=
        List.filter_congr (fun g hg => by rw [hknown_eq g hg])
      rw [hfc]
      cases hcb : fileChanged (st.known_files f.path) f <;>
        simp [processEntry, hcb]
    · intro g hg
      rcases List.mem_cons.mp hg with rfl | hg'
      · rw [List.foldl_cons, h3 g.path hfp]
        simp [processEntry]
      · rw [List.foldl_cons]
        exact h2 g hg'
    · intro p hp
      have hp1 : p ∉ l.map (fun f => f.path) := fun h =>
        hp (List.mem_cons_of_mem _ h)
      have hp2 : p ≠ f.path := fun h =>
        hp (by rw [List.map_cons, h]; exact List.mem_cons_self _ _)
      rw [List.foldl_cons, h3 p hp1]
      simp [processEntry, hp2]

/-- C8: over a duplicate-free pair of listings, one scan returns exactly
the files that are unseen or whose `(mtime, size)` differs from the stored
value, refreshes the stored entry of every listed file, and drops every
path absent from the listing from the internal map. -/
theorem c8_scan_returns_new_or_modified (l1 l2 : List MonitoredFile)
    (known : String → Option MonitoredFile)
    (hnd : ((l1 ++ l2).map (fun f => f.path)).Nodup) :
    (scanDirectories (some l1) (some l2) known).1 =
        (l1 ++ l2).filter (fun f => fileChanged (known f.path) f)
    ∧ (∀ f ∈ l1 ++ l2,
        (scanDirectories (some l1) (some l2) known).2 f.path = some f)
    ∧ (∀ p, p ∉ (l1 ++ l2).map (fun f => f.path) →
        (scanDirectories (some l1) (some l2) known).2 p = none) := by
  obtain ⟨h1, h2, h3⟩ :=
    scan_foldl (l1 ++ l2) ⟨[], known, []⟩ hnd
  have hcur := foldl_current (l1 ++ l2) ⟨[], known, []⟩
  unfold scanDirectories
  dsimp only
  rw [← List.foldl_append]
  refine ⟨by rw [h1]; rfl, ?_, ?_⟩
  · intro f hf
    have hmem : f.path ∈
        ((l1 ++ l2).foldl processEntry ⟨[], known, []⟩).current_files := by
      rw [hcur]
      simpa using List.mem_map_of_mem (fun f => f.path) hf
    rw [if_pos hmem]
    exact h2 f hf
  · intro p hp
    have hmem : p ∉
        ((l1 ++ l2).foldl processEntry ⟨[], known, []⟩).current_files := by
      rw [hcur]
      simpa using hp
    rw [if_neg hmem]

/-- C9: when the first directory's listing raises, a previously known file
of that directory (absent from the other directory's listing) is removed
from the internal map by that same scan, and is therefore reported again
as new by the next scan that lists it. -/
theorem c9_failed_listing_drops_and_rereports (l2 : List MonitoredFile)
    (known : String → Option MonitoredFile) (p : String)
    (v f : MonitoredFile) (l1' l2' : List MonitoredFile)
    (hv : known p = some v) (hp : p ∉ l2.map (fun f => f.path))
    (hnd : ((l1' ++ l2').map (fun f => f.path)).Nodup)
    (hf : f ∈ l1' ++ l2') (hfp : f.path = p) :
    (scanDirectories none (some l2) known).2 p = none
    ∧ f ∈ (scanDirectories (some l1') (some l2')
        ((scanDirectories none (some l2) known).2)).1 := by
  have hdrop : (scanDirectories none (some l2) known).2 p = none := by
    unfold scanDirectories
    dsimp only
    have hmem : p ∉ (l2.foldl processEntry ⟨[], known, []⟩).current_files := by
      rw [foldl_current]
      simpa using hp
    rw [if_neg hmem]
  refine ⟨hdrop, ?_⟩
  obtain ⟨h1, _, _⟩ := c8_scan_returns_new_or_modified l1' l2'
    ((scanDirectories none (some l2) known).2) hnd
  rw [h1]
  refine List.mem_filter.mpr ⟨hf, ?_⟩
  rw [hfp, hdrop]
  rfl

/-! ## Concrete fixtures for the scanning witnesses -/

/-- A concrete file in the first directory. -/
def wG1 : MonitoredFile := ⟨"d1/x.pdf", 5, 7⟩

/-- A concrete file in the second directory. -/
def wG2 : MonitoredFile := ⟨"d2/y.pdf", 6, 8⟩

/-- An internal map knowing only `wG1`. -/
def wKnown : String → Option MonitoredFile :=
  fun p => if p = "d1/x.pdf" then some wG1 else none

/-- Witness for `c8_scan_returns_new_or_modified` at concrete listings. -/
theorem c8_scan_returns_new_or_modified_witness :
    (([wG1] ++ [wG2]).map (fun f => f.path)).Nodup
    ∧ ((scanDirectories (some [wG1]) (some [wG2]) wKnown).1 =
        ([wG1] ++ [wG2]).filter (fun f => fileChanged (wKnown f.path) f)
      ∧ (∀ f ∈ [wG1] ++ [wG2],
          (scanDirectories (some [wG1]) (some [wG2]) wKnown).2 f.path = some f)
      ∧ (∀ p, p ∉ ([wG1] ++ [wG2]).map (fun f => f.path) →
          (scanDirectories (some [wG1]) (some [wG2]) wKnown).2 p = none)) :=
  ⟨by decide,
    c8_scan_returns_new_or_modified [wG1] [wG2] wKnown (by decide)⟩

/-- Witness for `c9_failed_listing_drops_and_rereports`: directory one's
listing raises while it holds `wG1`; the next scan lists `wG1` again. -/
theorem c9_failed_listing_drops_and_rereports_witness :
    wKnown "d1/x.pdf" = some wG1
    ∧ ("d1/x.pdf" ∉ [wG2].map (fun f => f.path))
    ∧ (([wG1] ++ [wG2]).map (fun f => f.path)).Nodup
    ∧ wG1 ∈ [wG1] ++ [wG2]
    ∧ ((scanDirectories none (some [wG2]) wKnown).2 "d1/x.pdf" = none
      ∧ wG1 ∈ (scanDirectories (some [wG1]) (some [wG2])
          ((scanDirectories none (some [wG2]) wKnown).2)).1) :=
  ⟨by simp [wKnown], by decide, by decide, by simp,
    c9_failed_listing_drops_and_rereports [wG2] wKnown "d1/x.pdf" wG1 wG1
      [wG1] [wG2] (by simp [wKnown]) (by decide) (by decide) (by simp) rfl⟩

/-! ## Theorems about pair matching -/

/-- Unparseable files are skipped: the grouping loop only sees the files
the filename pattern accepts. -/
lemma buildGroups_filter (p : MonitoredFile → Option (ℚ × String × Role)) :
    ∀ (files : List MonitoredFile) (init : List (GroupKey × FileGroup)),
      files.foldl (addFile p) init =
        (files.filter (fun f => (p f).isSome)).foldl (addFile p) init := by
  intro files
  induction files with
  | nil => intro init; rfl
  | cons f fs ih =>
    intro init
    rw [List.foldl_cons, List.filter_cons]
    cases hp : p f with
    | none =>
      have hskip : addFile p init f = init := by simp [addFile, hp]
      simp only [hp, Option.isSome_none, Bool.false_eq_true, if_false, hskip]
      exact ih init
    | some v =>
      simp only [hp, Option.isSome_some, if_true, List.foldl_cons]
      exact ih (addFile p init f)

/-- C5: an input list whose parseable files are exactly two files with the
same group name and differing roles yields exactly one `MatchedFiles`
holding both when their timestamps are less than 5 seconds apart, and
yields no pair — two incomplete buckets — when they are 5 or more seconds
apart. -/
theorem c5_pair_within_window (p : MonitoredFile → Option (ℚ × String × Role))
    (files : List MonitoredFile) (f1 f2 : MonitoredFile) (t1 t2 : ℚ)
    (n : String) (r1 r2 : Role)
    (hfilter : files.filter (fun f => (p f).isSome) = [f1, f2])
    (h1 : p f1 = some (t1, n, r1)) (h2 : p f2 = some (t2, n, r2))
    (hr : r1 ≠ r2) :
    (|t1 - t2| < 5 →
      matchFiles p files =
        [⟨if r1 = Role.summary then f1 else f2,
          if r1 = Role.summary then f2 else f1, t1, n⟩])
    ∧ (5 ≤ |t1 - t2| →
      matchFiles p files = [] ∧ (buildGroups p files).length = 2) := by
  have hbg : buildGroups p files = buildGroups p [f1, f2] := by
    unfold buildGroups
    rw [buildGroups_filter, hfilter]
  constructor
  · intro hlt
    cases r1 with
    | summary =>
      cases r2 with
      | summary => exact absurd rfl hr
      | transcript =>
        have hb : buildGroups p [f1, f2] = [((n, t1), ⟨some f1, some f2⟩)] := by
          simp [buildGroups, addFile, h1, h2, findMatchedKey, updateGroup,
            setSlot, List.find?, hlt]
        simp [matchFiles, hbg, hb, List.filterMap]
    | transcript =>
      cases r2 with
      | transcript => exact absurd rfl hr
      | summary =>
        have hb : buildGroups p [f1, f2] = [((n, t1), ⟨some f2, some f1⟩)] := by
          simp [buildGroups, addFile, h1, h2, findMatchedKey, updateGroup,
            setSlot, List.find?, hlt]
        simp [matchFiles, hbg, hb, List.filterMap]
  · intro hge
    have hnlt : ¬(|t1 - t2| < 5) := not_lt.mpr hge
    have hb : buildGroups p [f1, f2] =
        [((n, t1), setSlot ⟨none, none⟩ r1 f1),
         ((n, t2), setSlot ⟨none, none⟩ r2 f2)] := by
      simp [buildGroups, addFile, h1, h2, findMatchedKey, updateGroup,
        List.find?, hnlt]
    constructor
    · cases r1 with
      | summary =>
        cases r2 with
        | summary => exact absurd rfl hr
        | transcript => simp [matchFiles, hbg, hb, setSlot, List.filterMap]
      | transcript =>
        cases r2 with
        | transcript => exact absurd rfl hr
        | summary => simp [matchFiles, hbg, hb, setSlot, List.filterMap]
    · rw [hbg, hb]
      rfl

/-! ## Concrete fixtures for the matching witness -/

/-- A parse function recognising three concrete files: a summary at time 0,
a transcript at time 3, and a transcript at time 10, all of meeting
"Team". -/
def wParse : MonitoredFile → Option (ℚ × String × Role) := fun f =>
  if f.path = "a" then some (0, "Team", Role.summary)
  else if f.path = "b" then some (3, "Team", Role.transcript)
  else if f.path = "c" then some (10, "Team", Role.transcript)
  else none

/-- The summary file at time 0. -/
def wFa : MonitoredFile := ⟨"a", 0, 1⟩

/-- The transcript file at time 3 (within the 5-second window). -/
def wFb : MonitoredFile := ⟨"b", 0, 1⟩

/-- Witness for `c5_pair_within_window`: the summary at time 0 and the
transcript at time 3 form exactly one matched pair. -/
theorem c5_pair_within_window_witness :
    [wFa, wFb].filter (fun f => (wParse f).isSome) = [wFa, wFb]
    ∧ wParse wFa = some (0, "Team", Role.summary)
    ∧ wParse wFb = some (3, "Team", Role.transcript)
    ∧ ((|(0 : ℚ) - 3| < 5 →
        matchFiles wParse [wFa, wFb] =
          [⟨if Role.summary = Role.summary then wFa else wFb,
            if Role.summary = Role.summary then wFb else wFa, 0, "Team"⟩])
      ∧ (5 ≤ |(0 : ℚ) - 3| →
        matchFiles wParse [wFa, wFb] = []
          ∧ (buildGroups wParse [wFa, wFb]).length = 2)) :=
  ⟨by decide, rfl, rfl,
    c5_pair_within_window wParse [wFa, wFb] wFa wFb 0 3 "Team"
      Role.summary Role.transcript (by decide) rfl rfl (by decide)⟩

end FirefliesToBear
